import Mathlib

/-!
Verification development for the deal-detection core of the
telegram-offers-monitor repository (src/realtime.py).

The Python source is embedded shallowly:

* the Python `re` patterns that are used only through `.search(...)`
  (all classifier rule patterns and `NOT_PRICE_WORDS`) are embedded as an
  abstract syntax tree `RE` together with an executable matcher
  `reSearch` that decides whether a match exists anywhere in the string
  (alternation order and greediness are irrelevant for existence);
* the two price-capturing patterns `PRICE_PIX_RE` / `PRICE_FALLBACK_RE`,
  the URL stripper `URL_RE` and the numeric normalizer `_to_float_brl`
  are embedded as deterministic character scanners that follow the
  left-to-right, greedy, non-overlapping `finditer` semantics of the
  source patterns (for these specific patterns greedy matching never
  needs to backtrack, so a deterministic scanner is faithful);
* `classify_and_match` and the `SeenDB` duplicate cache are translated
  branch by branch; the sqlite table of `SeenDB` is modelled as a list
  of key/timestamp entries (a table state corresponds to a list whose
  keys are pairwise distinct; `ORDER BY ts DESC` ties are resolved
  deterministically by the model's insertion sort).

Python `float` values are modelled as rationals (ℚ).
-/

unseal Rat.mul Rat.add Rat.sub Rat.inv Rat.ofScientific

/-! ### Character helpers -/

def isDigitCh (c : Char) : Bool :=
  decide ('0' ≤ c) && decide (c ≤ '9')

/-- Whitespace as matched by Python's `\s` on the ASCII range. -/
def isSpaceCh (c : Char) : Bool :=
  c == ' ' || c == '\t' || c == '\n' || c == '\r' || c == '\x0b' || c == '\x0c'

/-- Accented Latin letters that occur in the source patterns and inputs;
they count as word characters for Python's Unicode `\b`. -/
def accentedChars : List Char :=
  ['à', 'á', 'â', 'ã', 'ç', 'é', 'ê', 'í', 'ó', 'ô', 'õ', 'ú', 'ü',
   'À', 'Á', 'Â', 'Ã', 'Ç', 'É', 'Ê', 'Í', 'Ó', 'Ô', 'Õ', 'Ú', 'Ü']

/-- Word characters for Python's `\b` (`\w`), on the character repertoire
used by the program: ASCII alphanumerics, underscore and the accented
letters above. -/
def isWordChar (c : Char) : Bool :=
  (decide ('a' ≤ c) && decide (c ≤ 'z')) ||
  (decide ('A' ≤ c) && decide (c ≤ 'Z')) ||
  isDigitCh c || c == '_' || accentedChars.contains c

/-- ASCII lowercasing, used to model the `re.I` flag (all source patterns
are compiled with it). -/
def asciiLower (c : Char) : Char :=
  if decide ('A' ≤ c) && decide (c ≤ 'Z') then Char.ofNat (c.toNat + 32) else c

/-! ### A regex engine for existence-only searches

The classifier rule patterns of the source are used only through
`pattern.search(text)` in boolean position, so only the existence of a
match matters.  `RE` covers exactly the constructs those patterns use:
character classes, concatenation, alternation, `*` (with `?`, `+` and
bounded repetition expressed through it and concatenation), lookahead
`(?=...)`, negative lookahead `(?!...)` and the word boundary `\b`.
`reRun` returns every reachable state (consumed prefix reversed, rest),
so `reSearch` decides the existence of a match at any start position.
The recursion is structural on a fuel argument (so that the kernel can
evaluate it); one unit of fuel is spent per call.  Every star iteration
counted by the engine consumes at least one character and every star in
the source patterns has a single character class as its body, so the
depth of the call tree from a pattern `re` on a rest of length `n` is at
most `reSize re * (2 * n + 4)`: the fuel passed by `reSearch` is never
exhausted. -/

inductive RE where
  | eps : RE
  | cls : (Char → Bool) → RE
  | seq : RE → RE → RE
  | alt : RE → RE → RE
  | star : RE → RE
  | look : RE → RE
  | nlook : RE → RE
  | wb : RE

def headIsWord : List Char → Bool
  | [] => false
  | c :: _ => isWordChar c

/-- Python's `\b`: the two sides disagree on word-character-ness (start
and end of the string count as non-word). `l` is the reversed prefix
already consumed, `r` the rest. -/
def atBoundary (l r : List Char) : Bool :=
  headIsWord l != headIsWord r

def reRun : Nat → RE → List Char → List Char → List (List Char × List Char)
  | 0, _, _, _ => []
  | Nat.succ fuel, re, l, r =>
    match re with
    | RE.eps => [(l, r)]
    | RE.cls p =>
      match r with
      | [] => []
      | c :: rest => if p c then [(c :: l, rest)] else []
    | RE.wb => if atBoundary l r then [(l, r)] else []
    | RE.seq a b =>
      (reRun fuel a l r).flatMap (fun st => reRun fuel b st.1 st.2)
    | RE.alt a b => reRun fuel a l r ++ reRun fuel b l r
    | RE.look a => if (reRun fuel a l r).isEmpty then [] else [(l, r)]
    | RE.nlook a => if (reRun fuel a l r).isEmpty then [(l, r)] else []
    | RE.star a =>
      (l, r) :: (reRun fuel a l r).flatMap
        (fun st =>
          if st.2.length < r.length then reRun fuel (RE.star a) st.1 st.2 else [])

/-- Structural size of a pattern, used to compute a sufficient fuel. -/
def reSize : RE → Nat
  | RE.eps => 1
  | RE.cls _ => 1
  | RE.wb => 1
  | RE.seq a b => reSize a + reSize b + 1
  | RE.alt a b => reSize a + reSize b + 1
  | RE.star a => reSize a + 1
  | RE.look a => reSize a + 1
  | RE.nlook a => reSize a + 1

def reMatchHere (fuel : Nat) (re : RE) (l r : List Char) : Bool :=
  !(reRun fuel re l r).isEmpty

def reSearchAux (fuel : Nat) (re : RE) : List Char → List Char → Bool
  | l, [] => reMatchHere fuel re l []
  | l, c :: rest =>
    reMatchHere fuel re l (c :: rest) || reSearchAux fuel re (c :: l) rest

def reSearchChars (re : RE) (s : List Char) : Bool :=
  reSearchAux (reSize re * (2 * s.length + 4)) re [] s

/-- Model of `pattern.search(text) is not None` for an `re.I`-compiled
pattern transcribed into `RE`. -/
def reSearch (re : RE) (s : String) : Bool :=
  reSearchChars re s.data

/-! ### Pattern-building helpers (all patterns use `re.I`) -/

/-- Case-insensitive single character; pattern letters are written in
lowercase, other characters match exactly. -/
def rchar (c : Char) : RE :=
  RE.cls (fun x => asciiLower x == c)

def rstr (s : String) : RE :=
  s.data.foldr (fun c acc => RE.seq (rchar c) acc) RE.eps

def seqs (l : List RE) : RE :=
  l.foldr RE.seq RE.eps

def alts1 (r : RE) (rs : List RE) : RE :=
  rs.foldl RE.alt r

def ropt (r : RE) : RE := RE.alt r RE.eps

def wsCls : RE := RE.cls isSpaceCh

/-- `\s*` -/
def wss : RE := RE.star wsCls

def rdigit : RE := RE.cls isDigitCh

/-- `.` (no DOTALL: everything but a newline) -/
def anyc : RE := RE.cls (fun c => c != '\n')

/-- `.*` -/
def anystar : RE := RE.star anyc

/-- `[aá]` under `re.I`. -/
def aAcute : RE :=
  RE.cls (fun x => asciiLower x == 'a' || x == 'á' || x == 'Á')

/-- `[-\s]*` -/
def sepDashWs : RE := RE.star (RE.cls (fun c => c == '-' || isSpaceCh c))

/-- `["']` -/
def quoteCls : RE := RE.cls (fun c => c == '"' || c.toNat == 39)

/-! ### The rule patterns of src/realtime.py, lines 182-284 -/

/-- `NOT_PRICE_WORDS` (line 187). -/
def NOT_PRICE_WORDS : RE :=
  seqs [RE.wb,
    alts1 (seqs [rstr ("moeda"), ropt (rchar 's')])
      [seqs [rstr ("ponto"), ropt (rchar 's')],
       rstr ("cashback"),
       rstr ("reembolso"),
       seqs [rstr ("de"), wss, rstr ("volta")],
       seqs [rstr ("parcela"), ropt (rchar 's')],
       seqs [rchar 'x', wss, rstr ("de")],
       rstr ("frete"),
       rstr ("km"),
       rstr ("m2")],
    RE.wb]

/-- `BLOCK_CATS` (line 226). -/
def BLOCK_CATS : RE :=
  seqs [RE.wb,
    alts1 (rstr ("celular"))
      [rstr ("smartphone"), rstr ("iphone"), rstr ("android"),
       rstr ("notebook"), rstr ("laptop"), rstr ("macbook"),
       rstr ("geladeira"), rstr ("refrigerador"),
       seqs [rchar 'm', aAcute, rstr ("quina"), wss, rstr ("de"), wss, rstr ("lavar")],
       rstr ("lavadora"),
       seqs [rstr ("lava"), wss, rchar 'e', wss, rstr ("seca")]],
    RE.wb]

/-- `PC_GAMER_RE` (line 230). -/
def PC_GAMER_RE : RE :=
  seqs [RE.wb,
    alts1 (seqs [rstr ("pc"), wss, rstr ("gamer")])
      [seqs [rstr ("setup"), wss, rstr ("completo")],
       seqs [rstr ("kit"), wss, rstr ("completo")]],
    RE.wb]

/-- `\brtx\s*5060(?!\s*ti)\b`, the shared core of the RTX 5060 patterns. -/
def rtx5060core : RE :=
  seqs [RE.wb, rstr ("rtx"), wss, rstr ("5060"),
    RE.nlook (seqs [wss, rstr ("ti")]), RE.wb]

/-- `\b(2\s*(?:fans?|oc|x)|dual\s*fan)\b` -/
def fan2Group : RE :=
  seqs [RE.wb,
    RE.alt
      (seqs [rchar '2', wss,
        alts1 (seqs [rstr ("fan"), ropt (rchar 's')]) [rstr ("oc"), rchar 'x']])
      (seqs [rstr ("dual"), wss, rstr ("fan")]),
    RE.wb]

/-- `\b(3\s*(?:fans?|oc|x)|triple\s*fan)\b` -/
def fan3Group : RE :=
  seqs [RE.wb,
    RE.alt
      (seqs [rchar '3', wss,
        alts1 (seqs [rstr ("fan"), ropt (rchar 's')]) [rstr ("oc"), rchar 'x']])
      (seqs [rstr ("triple"), wss, rstr ("fan")]),
    RE.wb]

/-- `RTX5060_2FAN_RE` (line 232). -/
def RTX5060_2FAN_RE : RE :=
  RE.alt (seqs [rtx5060core, anystar, fan2Group])
    (seqs [fan2Group, anystar, rtx5060core])

/-- `RTX5060_3FAN_RE` (line 233). -/
def RTX5060_3FAN_RE : RE :=
  RE.alt (seqs [rtx5060core, anystar, fan3Group])
    (seqs [fan3Group, anystar, rtx5060core])

/-- `RTX5060_RE` (line 234). -/
def RTX5060_RE : RE := rtx5060core

/-- `RTX5060TI_RE` (line 235). -/
def RTX5060TI_RE : RE :=
  seqs [RE.wb, rstr ("rtx"), wss, rstr ("5060"), wss, rstr ("ti"), RE.wb]

/-- `RTX5070_FAM` (line 236). -/
def RTX5070_FAM : RE :=
  seqs [RE.wb, rstr ("rtx"), wss, rstr ("5070"),
    ropt (seqs [wss, rstr ("ti")]), RE.wb]

/-- `RYZEN_7_5700X_RE` (line 238). -/
def RYZEN_7_5700X_RE : RE :=
  seqs [RE.wb, rstr ("ryzen"), wss, rchar '7', wss, rstr ("5700x"), RE.wb]

/-- `I5_14400F_RE` (line 239). -/
def I5_14400F_RE : RE :=
  seqs [RE.wb, rstr ("i5"), sepDashWs, rstr ("14400f"), RE.wb]

/-- `[kf]*` under `re.I`. -/
def kfStar : RE :=
  RE.star (RE.cls (fun c => asciiLower c == 'k' || asciiLower c == 'f'))

/-- `INTEL_SUP` (line 241). -/
def INTEL_SUP : RE :=
  seqs [RE.wb,
    alts1
      (seqs [rstr ("i5"), sepDashWs, rstr ("14"),
        RE.cls (fun c => decide ('4' ≤ c) && decide (c ≤ '9')), rdigit, rdigit, kfStar])
      [seqs [rstr ("i5"), sepDashWs, rstr ("145"), rdigit, rdigit, kfStar],
       seqs [rstr ("i7"), sepDashWs, rstr ("14"), rdigit, rdigit, rdigit, kfStar],
       seqs [rstr ("i9"), sepDashWs, rstr ("14"), rdigit, rdigit, rdigit, kfStar]],
    RE.wb]

/-- `[3d]*` under `re.I`. -/
def threeDStar : RE :=
  RE.star (RE.cls (fun c => c == '3' || asciiLower c == 'd'))

/-- `AMD_SUP` (line 242). -/
def AMD_SUP : RE :=
  seqs [RE.wb,
    alts1
      (seqs [rstr ("ryzen"), wss, rchar '7', wss, rstr ("5700x"), threeDStar])
      [seqs [rstr ("ryzen"), wss, rchar '7', wss, rstr ("5800x"), threeDStar],
       seqs [rstr ("ryzen"), wss, rchar '9', wss, rstr ("5900x")],
       seqs [rstr ("ryzen"), wss, rchar '9', wss, rstr ("5950x")]],
    RE.wb]

/-- `AMD_BLOCK` (line 243). -/
def AMD_BLOCK : RE :=
  seqs [RE.wb,
    alts1
      (seqs [rstr ("ryzen"), wss, RE.alt (rchar '3') (rchar '5'), wsCls])
      [seqs [rstr ("5600"), ropt (rchar 'g'), ropt (rchar 't')],
       rstr ("5500"),
       seqs [rstr ("5700"), RE.nlook (rchar 'x')]],
    RE.wb]

/-- `A520_RE` (line 245). -/
def A520_RE : RE :=
  seqs [RE.wb, rstr ("a520"), ropt (rchar 'm'), RE.wb]

/-- `H610_RE` (line 246). -/
def H610_RE : RE :=
  seqs [RE.wb, rstr ("h610"), ropt (rchar 'm'), RE.wb]

/-- `LGA1700_RE` (line 247). -/
def LGA1700_RE : RE :=
  seqs [RE.wb,
    alts1 (seqs [rstr ("b660"), ropt (rchar 'm')])
      [seqs [rstr ("b760"), ropt (rchar 'm')], rstr ("z690"), rstr ("z790")],
    RE.wb]

/-- `SPECIFIC_B760M_RE` (line 249). -/
def SPECIFIC_B760M_RE : RE :=
  seqs [RE.wb, rstr ("b760m"), RE.wb]

/-- `INTEL_14600K_RE` (line 250). -/
def INTEL_14600K_RE : RE :=
  seqs [RE.wb, rstr ("i5"), sepDashWs, rstr ("14600k"), RE.wb]

def waterCoolerG : RE := seqs [RE.wb, rstr ("water"), wss, rstr ("cooler"), RE.wb]

def mm240G : RE := seqs [RE.wb, rstr ("240"), wss, rstr ("mm"), RE.wb]

def argbG : RE := seqs [RE.wb, rstr ("argb"), RE.wb]

/-- `WATER_240MM_ARGB_RE` (line 252). -/
def WATER_240MM_ARGB_RE : RE :=
  alts1 (seqs [waterCoolerG, anystar, mm240G, anystar, argbG])
    [seqs [argbG, anystar, waterCoolerG, anystar, mm240G],
     seqs [mm240G, anystar, waterCoolerG, anystar, argbG]]

/-- `SSD_RE` (line 259). -/
def SSD_RE : RE :=
  RE.alt
    (seqs [RE.wb, rstr ("ssd"), RE.wb, anystar, RE.wb, rstr ("kingston"), RE.wb])
    (seqs [RE.wb, rstr ("kingston"), RE.wb, anystar, RE.wb, rstr ("ssd"), RE.wb])

/-- `M2_RE` (line 260). -/
def M2_RE : RE :=
  RE.alt (seqs [RE.wb, rchar 'm', ropt (rchar '.'), rchar '2', RE.wb])
    (seqs [RE.wb, rstr ("nvme"), RE.wb])

/-- `TB1_RE` (line 261). -/
def TB1_RE : RE :=
  seqs [RE.wb, rchar '1', wss, rstr ("tb"), RE.wb]

def ddr4G : RE := seqs [RE.wb, rstr ("ddr4"), RE.wb]

def gb16G : RE := seqs [RE.wb, rstr ("16"), wss, rstr ("gb"), RE.wb]

def mhz3200G : RE := seqs [RE.wb, rstr ("3200"), RE.wb]

/-- `RAM_16GB_3200_RE` (line 264). -/
def RAM_16GB_3200_RE : RE :=
  RE.alt (seqs [ddr4G, anystar, gb16G, anystar, mhz3200G])
    (seqs [gb16G, anystar, ddr4G, anystar, mhz3200G])

/-- `CADEIRA_RE` (line 266). -/
def CADEIRA_RE : RE :=
  seqs [RE.wb, rstr ("cadeira"), RE.wb]

/-- `DUALSENSE_RE` (line 267). -/
def DUALSENSE_RE : RE :=
  seqs [RE.wb,
    alts1 (rstr ("dualsense"))
      [seqs [rstr ("controle"), wss, rstr ("ps5")],
       seqs [rstr ("controle"), wss, rstr ("playstation"), wss, rchar '5']],
    RE.wb]

def arCondG : RE := seqs [RE.wb, rstr ("ar"), wss, rstr ("condicionado"), RE.wb]

def inverterG : RE := seqs [RE.wb, rstr ("inverter"), RE.wb]

/-- `AR_INVERTER_RE` (line 269). -/
def AR_INVERTER_RE : RE :=
  RE.alt (seqs [arCondG, anystar, inverterG]) (seqs [inverterG, anystar, arCondG])

/-- `KINDLE_RE` (line 270). -/
def KINDLE_RE : RE :=
  seqs [RE.wb, rstr ("kindle"), RE.wb]

def cafeteiraG : RE := seqs [RE.wb, rstr ("cafeteira"), RE.wb]

def programavelG : RE :=
  seqs [RE.wb, rstr ("progr"), aAcute, rchar 'm', aAcute, rstr ("vel"), RE.wb]

/-- `CAFETEIRA_PROG_RE` (line 271). -/
def CAFETEIRA_PROG_RE : RE :=
  RE.alt (seqs [cafeteiraG, anystar, programavelG])
    (seqs [programavelG, anystar, cafeteiraG])

/-- `(tênis|tenis)` under `re.I`. -/
def tenisG : RE :=
  RE.alt (seqs [rchar 't', RE.cls (fun x => x == 'ê' || x == 'Ê'), rstr ("nis")])
    (rstr ("tenis"))

/-- `TENIS_NIKE_RE` (line 272). -/
def TENIS_NIKE_RE : RE :=
  seqs [RE.wb, tenisG, wss,
    alts1 (rstr ("nike"))
      [seqs [rstr ("air"), wss, rstr ("max")],
       seqs [rstr ("air"), wss, rstr ("force")],
       rstr ("jordan")],
    RE.wb]

def webcamG : RE := seqs [RE.wb, rstr ("webcam"), RE.wb]

def fourKG : RE := seqs [RE.wb, rstr ("4k"), RE.wb]

/-- `WEBCAM_4K_RE` (line 273). -/
def WEBCAM_4K_RE : RE :=
  RE.alt (seqs [webcamG, anystar, fourKG]) (seqs [fourKG, anystar, webcamG])

/-- `TV_RE` (line 276). -/
def TV_RE : RE :=
  seqs [RE.wb,
    alts1 (rstr ("tv"))
      [seqs [rstr ("smart"), wss, rstr ("tv")],
       seqs [rstr ("televis"),
         RE.alt (seqs [RE.cls (fun x => x == 'ã' || x == 'Ã'), rchar 'o'])
           (rstr ("ao"))]],
    RE.wb]

/-- `MONITOR_LG_27_RE` (line 278). -/
def MONITOR_LG_27_RE : RE :=
  RE.alt (seqs [RE.wb, rstr ("27gs60f"), RE.wb])
    (seqs
      [RE.look (seqs [anystar, RE.wb, rstr ("lg"), RE.wb]),
       RE.look (seqs [anystar, RE.wb, rstr ("ultragear"), RE.wb]),
       RE.look (seqs [anystar, RE.wb, rstr ("27"), wss, ropt quoteCls]),
       RE.look (seqs [anystar, RE.wb, rstr ("180"), wss, rstr ("hz"), RE.wb]),
       RE.look (seqs [anystar, RE.wb,
         RE.alt (rstr ("fhd")) (seqs [rstr ("full"), wss, rstr ("hd")]), RE.wb])])

/-- `MONITOR_RE` (line 282). -/
def MONITOR_RE : RE :=
  seqs [RE.wb, rstr ("monitor"), RE.wb]

/-- `MONITOR_SIZE_RE` (line 283). -/
def MONITOR_SIZE_RE : RE :=
  seqs [RE.wb,
    alts1 (rstr ("27"))
      [rstr ("28"), rstr ("29"), rstr ("30"), rstr ("31"), rstr ("32"),
       rstr ("34"), rstr ("35"), rstr ("38"), rstr ("40"), rstr ("42"),
       rstr ("43"), rstr ("45"), rstr ("48"), rstr ("49"), rstr ("50"),
       rstr ("55")],
    wss, ropt quoteCls, RE.wb]

/-- `MONITOR_144HZ_RE` (line 284). -/
def MONITOR_144HZ_RE : RE :=
  seqs [RE.wb,
    alts1
      (seqs [rstr ("14"), RE.cls (fun c => decide ('4' ≤ c) && decide (c ≤ '9'))])
      [seqs [rchar '1', RE.cls (fun c => decide ('5' ≤ c) && decide (c ≤ '9')), rdigit],
       seqs [RE.cls (fun c => decide ('2' ≤ c) && decide (c ≤ '9')), rdigit, rdigit]],
    wss, rstr ("hz"), RE.wb]

/-! ### The price extractor (src/realtime.py, lines 182-221)

`PRICE_PIX_RE`, `PRICE_FALLBACK_RE` and `URL_RE` are embedded as
deterministic scanners.  For these patterns Python's greedy backtracking
matcher never has to backtrack (after the greedy digit groups the
remainder of each pattern can only start with a character that a
relinquished digit/dot/space could never satisfy), so a deterministic
greedy scan over the string, restarting at the next character on
failure and continuing after the match end on success, reproduces
`finditer` exactly. -/

def trimChars (l : List Char) : List Char :=
  ((l.dropWhile isSpaceCh).reverse.dropWhile isSpaceCh).reverse

/-- Match a literal pattern (given in lowercase) case-insensitively at
the head of `l`, returning the rest. -/
def stripCI : List Char → List Char → Option (List Char)
  | [], l => some l
  | _ :: _, [] => none
  | p :: ps, c :: cs => if asciiLower c == p then stripCI ps cs else none

/-- One step of `URL_RE.sub(" ", text)`: `https?://\S+`, case-insensitive,
replaced by a single space.  Fuel is spent once per input character. -/
def stripUrlsAux : Nat → List Char → List Char
  | 0, l => l
  | _, [] => []
  | Nat.succ fuel, c :: rest =>
    let afterScheme : Option (List Char) :=
      match stripCI ['h', 't', 't', 'p', 's', ':', '/', '/'] (c :: rest) with
      | some r => some r
      | none => stripCI ['h', 't', 't', 'p', ':', '/', '/'] (c :: rest)
    match afterScheme with
    | some r =>
      match r with
      | [] => c :: stripUrlsAux fuel rest
      | ch :: _ =>
        if isSpaceCh ch then c :: stripUrlsAux fuel rest
        else ' ' :: stripUrlsAux fuel (r.dropWhile (fun x => !isSpaceCh x))
    | none => c :: stripUrlsAux fuel rest

def stripUrls (l : List Char) : List Char :=
  stripUrlsAux (l.length + 1) l

/-- `[0-9]{1,3}`, greedy. -/
def takeUpTo3Digits : List Char → Option (List Char × List Char)
  | [] => none
  | c1 :: r1 =>
    if isDigitCh c1 then
      match r1 with
      | c2 :: r2 =>
        if isDigitCh c2 then
          match r2 with
          | c3 :: r3 =>
            if isDigitCh c3 then some ([c1, c2, c3], r3) else some ([c1, c2], r2)
          | [] => some ([c1, c2], [])
        else some ([c1], r1)
      | [] => some ([c1], [])
    else none

/-- `(?:\.[0-9]{3})*`, greedy. -/
def takeThousandGroups : List Char → List Char × List Char
  | '.' :: a :: b :: c :: rest =>
    if isDigitCh a && isDigitCh b && isDigitCh c then
      let g := takeThousandGroups rest
      ('.' :: a :: b :: c :: g.1, g.2)
    else ([], '.' :: a :: b :: c :: rest)
  | l => ([], l)

/-- `(?:,[0-9]{1,2})?`, greedy. -/
def takeCommaPart : List Char → List Char × List Char
  | ',' :: a :: b :: rest =>
    if isDigitCh a then
      if isDigitCh b then ([',', a, b], rest) else ([',', a], b :: rest)
    else ([], ',' :: a :: b :: rest)
  | ',' :: a :: [] => if isDigitCh a then ([',', a], []) else ([], [',', a])
  | l => ([], l)

/-- The capture group `[0-9]{1,3}(?:\.[0-9]{3})*(?:,[0-9]{1,2})?` of both
price patterns: matched characters and rest. -/
def parseNumber (l : List Char) : Option (List Char × List Char) :=
  match takeUpTo3Digits l with
  | none => none
  | some (d1, r1) =>
    let g := takeThousandGroups r1
    let cp := takeCommaPart g.2
    some (d1 ++ g.1 ++ cp.1, cp.2)

/-- `\s*(?:no\s*pix|à\s*vista|a\s*vista)` of `PRICE_PIX_RE`. -/
def matchQualifier (l : List Char) : Option (List Char) :=
  let l1 := l.dropWhile isSpaceCh
  match stripCI ['n', 'o'] l1 with
  | some r => stripCI ['p', 'i', 'x'] (r.dropWhile isSpaceCh)
  | none =>
    match l1 with
    | c :: r =>
      if c == 'à' || c == 'À' then
        stripCI ['v', 'i', 's', 't', 'a'] (r.dropWhile isSpaceCh)
      else if c == 'a' || c == 'A' then
        stripCI ['v', 'i', 's', 't', 'a'] (r.dropWhile isSpaceCh)
      else none
    | [] => none

/-- `PRICE_PIX_RE.finditer`, collecting group 1 of every match.  Fuel is
spent once per scan step; a failed start retries at the next character,
a successful match continues after its end. -/
def pixScanAux : Nat → List Char → List (List Char)
  | 0, _ => []
  | _, [] => []
  | Nat.succ fuel, c :: rest =>
    if c == 'r' || c == 'R' then
      match rest with
      | '$' :: r2 =>
        match parseNumber (r2.dropWhile isSpaceCh) with
        | some (num, r4) =>
          match matchQualifier r4 with
          | some r5 => num :: pixScanAux fuel r5
          | none => pixScanAux fuel rest
        | none => pixScanAux fuel rest
      | _ => pixScanAux fuel rest
    else pixScanAux fuel rest

def pixScan (l : List Char) : List (List Char) :=
  pixScanAux (l.length + 1) l

/-- `PRICE_FALLBACK_RE.finditer`: group 1 plus the match's start and end
index, needed for the ±40-character context window. -/
def fbScanAux : Nat → List Char → Nat → List (List Char × Nat × Nat)
  | 0, _, _ => []
  | _, [], _ => []
  | Nat.succ fuel, c :: rest, i =>
    if c == 'r' || c == 'R' then
      match rest with
      | '$' :: r2 =>
        let spaces := r2.takeWhile isSpaceCh
        match parseNumber (r2.dropWhile isSpaceCh) with
        | some (num, r4) =>
          let len := 2 + spaces.length + num.length
          (num, i, i + len) :: fbScanAux fuel r4 (i + len)
        | none => fbScanAux fuel rest (i + 1)
      | _ => fbScanAux fuel rest (i + 1)
    else fbScanAux fuel rest (i + 1)

def fbScan (l : List Char) : List (List Char × Nat × Nat) :=
  fbScanAux (l.length + 1) l 0

/-! #### `_to_float_brl` (lines 190-200) -/

def digitsToNat (l : List Char) : Nat :=
  l.foldl (fun acc c => acc * 10 + (c.toNat - 48)) 0

/-- Python's `float(s)` on the strings producible here (an optional sign,
digits, at most one dot, no exponent); other strings raise in Python and
yield `none` here. -/
def pyFloat (l : List Char) : Option ℚ :=
  let sl : Bool × List Char :=
    match l with
    | '-' :: t => (true, t)
    | '+' :: t => (false, t)
    | t => (false, t)
  let ip := sl.2.takeWhile isDigitCh
  let r1 := sl.2.dropWhile isDigitCh
  let sgn : ℚ := if sl.1 then -1 else 1
  match r1 with
  | [] => if ip.isEmpty then none else some (sgn * (digitsToNat ip : ℚ))
  | '.' :: r2 =>
    let fp := r2.takeWhile isDigitCh
    if (r2.dropWhile isDigitCh).isEmpty then
      if ip.isEmpty && fp.isEmpty then none
      else some (sgn * ((digitsToNat ip : ℚ) + (digitsToNat fp : ℚ) / (10 ^ fp.length : ℚ)))
    else none
  | _ => none

/-- `_to_float_brl` (line 190): strip, drop `.` (thousands separator),
turn `,` into the decimal point, parse, and reject values outside
`(0, ∞) ∩ [5, 5_000_000]`. -/
def to_float_brl (raw : String) : Option ℚ :=
  let s := ((trimChars raw.data).filter (fun c => c != '.')).map
    (fun c => if c == ',' then '.' else c)
  match pyFloat s with
  | none => none
  | some v => if v ≤ 0 then none else if v < 5 ∨ v > 5000000 then none else some v

/-! #### `find_lowest_price` (lines 202-221) -/

/-- Python's `min` over a list of floats (`none` on the empty list). -/
def listMin : List ℚ → Option ℚ
  | [] => none
  | x :: xs => some (xs.foldl min x)

/-- The `if v:` truthiness filter applied to each parsed candidate. -/
def candVal (num : List Char) : Option ℚ :=
  match to_float_brl (String.mk num) with
  | some v => if v == 0 then none else some v
  | none => none

/-- The `vals` accumulated from `PRICE_PIX_RE` (lines 207-210). -/
def pixVals (text : String) : List ℚ :=
  (pixScan (stripUrls text.data)).filterMap candVal

/-- The `vals` accumulated from `PRICE_FALLBACK_RE` with the ±40-character
negative-context filter (lines 212-220). -/
def fbVals (text : String) : List ℚ :=
  let tn := stripUrls text.data
  (fbScan tn).filterMap (fun cand =>
    let s := cand.2.1 - 40
    let e := min tn.length (cand.2.2 + 40)
    let ctx := (tn.take e).drop s
    if reSearchChars NOT_PRICE_WORDS ctx then none else candVal cand.1)

/-- `find_lowest_price` (line 202). -/
def find_lowest_price (text : String) : Option ℚ :=
  if text = "" then none
  else if (pixVals text).isEmpty then listMin (fbVals text)
  else listMin (pixVals text)

/-! ### The classifier `classify_and_match` (src/realtime.py, lines 309-484)

The Python function returns the tuple
`(matched, key, title, price, reason)`; it is embedded as a structure
with those fields.  `if not price:` on an `Optional[float]` is true for
`None` and for `0.0`, which `truthy` reproduces (the extractor never
produces `0.0`, but the translation keeps the check).  The `if/elif`
chain is translated branch by branch in source order. -/

structure ClassificationResult where
  matched : Bool
  key : String
  title : String
  price : Option ℚ
  reason : String
deriving DecidableEq

/-- Python truthiness of an `Optional[float]`. -/
def truthy : Option ℚ → Bool
  | none => false
  | some v => v != 0

/-- The recurring threshold pattern of the source rules:
`if not price: ... "sem preço"`, `if price < lo: ... mLow` (implausible
capture), `if price < hi: True ... mHit`, else `... mHi`.  The matched
branch may carry a different human title (`tiHit`), exactly as in the
RTX 5060 and CPU rules. -/
def ruleLtLt (k ti tiHit : String) (lo : ℚ) (mLow : String) (hi : ℚ)
    (mHit mHi : String) (price : Option ℚ) : ClassificationResult :=
  if !truthy price then ⟨false, k, ti, none, "sem preço"⟩
  else if price.getD 0 < lo then ⟨false, k, ti, price, mLow⟩
  else if price.getD 0 < hi then ⟨true, k, tiHit, price, mHit⟩
  else ⟨false, k, ti, price, mHi⟩

/-- As `ruleLtLt` but with an inclusive upper bound (`<=`), used by the
RAM, Kindle and TV rules. -/
def ruleLtLe (k ti : String) (lo : ℚ) (mLow : String) (hi : ℚ)
    (mHit mHi : String) (price : Option ℚ) : ClassificationResult :=
  if !truthy price then ⟨false, k, ti, none, "sem preço"⟩
  else if price.getD 0 < lo then ⟨false, k, ti, price, mLow⟩
  else if price.getD 0 ≤ hi then ⟨true, k, ti, price, mHit⟩
  else ⟨false, k, ti, price, mHi⟩

/-- The SSD rule pattern: no lower implausibility bound, inclusive upper
bound. -/
def ruleLe (k ti : String) (hi : ℚ) (mHit mHi : String)
    (price : Option ℚ) : ClassificationResult :=
  if !truthy price then ⟨false, k, ti, none, "sem preço"⟩
  else if price.getD 0 ≤ hi then ⟨true, k, ti, price, mHit⟩
  else ⟨false, k, ti, price, mHi⟩

/-- The chair rule pattern: `300 <= (price or 0) < 500` (with `price`
truthy after the guard, `price or 0` is `price`). -/
def ruleBetween (k ti tiHit : String) (lo hi : ℚ) (mHit mMiss : String)
    (price : Option ℚ) : ClassificationResult :=
  if !truthy price then ⟨false, k, ti, none, "sem preço"⟩
  else if lo ≤ price.getD 0 ∧ price.getD 0 < hi then ⟨true, k, tiHit, price, mHit⟩
  else ⟨false, k, ti, price, mMiss⟩

/-- The sneaker/webcam rule pattern: `if price and price < hi`, no
`sem preço` guard of its own. -/
def ruleOptLt (k ti : String) (hi : ℚ) (mHit mMiss : String)
    (price : Option ℚ) : ClassificationResult :=
  if truthy price && price.getD 0 < hi then ⟨true, k, ti, price, mHit⟩
  else ⟨false, k, ti, price, mMiss⟩

/-- The `if/elif` chain as a first-match scan: `firstMatch rules d`
returns the result of the first rule whose (already evaluated, pure)
condition holds, and `d` when none does. -/
def firstMatch : List (Bool × ClassificationResult) → ClassificationResult →
    ClassificationResult
  | [], d => d
  | r :: rest, d => if r.1 then r.2 else firstMatch rest d

/-- The part of `classify_and_match` from line 316 on, after the two
category-independent blocks, parametrised by the already-computed
`price = find_lowest_price(t)` (line 314).  One table entry per `if` of
the source, in source order; the final default is line 484. -/
def classify_priced (t : String) (price : Option ℚ) : ClassificationResult :=
  firstMatch
    [(reSearch A520_RE t,
      ⟨false, "mobo:a520", "A520 bloqueada", price, "A520 bloqueada"⟩),
     (reSearch H610_RE t,
      ⟨false, "mobo:h610", "H610 bloqueada", price, "H610 bloqueada"⟩),
     (reSearch LGA1700_RE t || reSearch SPECIFIC_B760M_RE t,
      ruleLtLt ("mobo:lga1700") ("Placa-mãe LGA1700/B760") ("Placa-mãe LGA1700/B760")
        300 ("preço irreal (< 300)") 600 ("< 600") (">= 600") price),
     (reSearch INTEL_14600K_RE t,
      ruleLtLt ("cpu:i5-14600k") ("i5-14600K") ("i5-14600K")
        400 ("preço irreal (< 400)") 1000 ("< 1000") (">= 1000") price),
     (reSearch RTX5060_3FAN_RE t,
      ruleLtLt ("gpu:rtx5060:3fan") ("RTX 5060 3 Fans") ("RTX 5060 Triple Fan")
        1500 ("preço irreal (< 1500)") 1950 ("< 1950") (">= 1950") price),
     (reSearch RTX5060_2FAN_RE t,
      ruleLtLt ("gpu:rtx5060:2fan") ("RTX 5060 2 Fans") ("RTX 5060 Dual Fan")
        1500 ("preço irreal (< 1500)") 1850 ("< 1850") (">= 1850") price),
     (reSearch RTX5060TI_RE t,
      ruleLtLt ("gpu:rtx5060ti") ("RTX 5060 Ti") ("RTX 5060 Ti")
        1500 ("preço irreal (< 1500)") 2100 ("< 2100") (">= 2100") price),
     (reSearch RTX5060_RE t,
      ruleLtLt ("gpu:rtx5060") ("RTX 5060") ("RTX 5060")
        1500 ("preço irreal (< 1500)") 1900 ("< 1900") (">= 1900") price),
     (reSearch RTX5070_FAM t,
      ruleLtLt ("gpu:rtx5070") ("RTX 5070/5070 Ti") ("RTX 5070/5070 Ti")
        2500 ("preço irreal (< 2500)") 3500 ("< 3500") (">= 3500") price),
     (reSearch AMD_BLOCK t,
      ⟨false, "cpu:amd:block", "CPU AMD inferior", price, "Ryzen 3/5 bloqueado"⟩),
     (reSearch RYZEN_7_5700X_RE t,
      ruleLtLt ("cpu:ryzen7_5700x") ("Ryzen 7 5700X") ("Ryzen 7 5700X")
        400 ("preço irreal (< 400)") 800 ("< 800") (">= 800") price),
     (reSearch I5_14400F_RE t,
      ruleLtLt ("cpu:i5_14400f") ("i5-14400F") ("i5-14400F")
        400 ("preço irreal (< 400)") 750 ("< 750") (">= 750") price),
     (reSearch INTEL_SUP t,
      ruleLtLt ("cpu:intel") ("CPU Intel sup.") ("CPU Intel sup. (i5-14400F+)")
        400 ("preço irreal (< 400)") 900 ("< 900") (">= 900") price),
     (reSearch AMD_SUP t,
      ruleLtLt ("cpu:amd") ("CPU AMD sup.") ("CPU AMD sup. (Ryzen 7 5700X+)")
        400 ("preço irreal (< 400)") 900 ("< 900") (">= 900") price),
     (reSearch WATER_240MM_ARGB_RE t,
      ruleLtLt ("cooler:water240argb") ("Water Cooler 240mm ARGB") ("Water Cooler 240mm ARGB")
        50 ("preço irreal (< 50)") 200 ("< 200") (">= 200") price),
     (reSearch SSD_RE t && reSearch M2_RE t && reSearch TB1_RE t,
      ruleLe ("ssd:kingston:m2:1tb") ("SSD Kingston M.2 1TB") 400 ("<= 400") ("> 400") price),
     (reSearch RAM_16GB_3200_RE t,
      ruleLtLe ("ram:16gb3200") ("Memória 16GB DDR4 3200MHz")
        100 ("preço irreal (< 100)") 300 ("<= 300") ("> 300") price),
     (reSearch CADEIRA_RE t,
      ruleBetween ("cadeira") ("Cadeira") ("Cadeira Gamer") 300 500
        ("entre 300-500") ("fora da faixa 300-500") price),
     (reSearch DUALSENSE_RE t,
      ruleLtLt ("dualsense") ("Controle PS5 DualSense") ("Controle PS5 DualSense")
        200 ("preço irreal (< 200)") 300 ("< 300") (">= 300") price),
     (reSearch AR_INVERTER_RE t,
      ruleLtLt ("ar_inverter") ("Ar Condicionado Inverter") ("Ar Condicionado Inverter")
        1000 ("preço irreal (< 1000)") 1500 ("< 1500") (">= 1500") price),
     (reSearch KINDLE_RE t,
      ruleLtLe ("kindle") ("Kindle") 100 ("preço irreal (< 100)") 470 ("<= 470") ("> 470") price),
     (reSearch CAFETEIRA_PROG_RE t,
      ruleLtLt ("cafeteira") ("Cafeteira Programável") ("Cafeteira Programável")
        50 ("preço irreal (< 50)") 500 ("< 500") (">= 500") price),
     (reSearch TENIS_NIKE_RE t,
      ruleOptLt ("tenis_nike") ("Tênis Nike") 250 ("< 250") (">= 250 ou sem preço") price),
     (reSearch WEBCAM_4K_RE t,
      ruleOptLt ("webcam_4k") ("Webcam 4K") 250 ("< 250") (">= 250 ou sem preço") price),
     (reSearch TV_RE t,
      ruleLtLe ("tv") ("TV / Smart TV") 200 ("preço irreal (<200)") 1000 ("<=1000") ("> 1000") price),
     (reSearch MONITOR_LG_27_RE t,
      ruleLtLt ("monitor:lg27") ("Monitor LG UltraGear 27\" 180Hz") ("Monitor LG UltraGear 27\" 180Hz")
        200 ("preço irreal (< 200)") 700 ("< 700") (">= 700") price),
     (reSearch MONITOR_RE t && reSearch MONITOR_SIZE_RE t && reSearch MONITOR_144HZ_RE t,
      ruleLtLt ("monitor") ("Monitor 27\"+ 144Hz+") ("Monitor 27\"+ 144Hz+")
        200 ("preço irreal (< 200)") 700 ("< 700") (">= 700") price)]
    ⟨false, "none", "sem match", price, "sem match"⟩

/-- `classify_and_match` (line 309): the two category-independent blocks
run first (lines 311-312, before the price is even computed), then the
product rules. -/
def classify_and_match (text : String) : ClassificationResult :=
  let t := text
  if reSearch BLOCK_CATS t then
    ⟨false, "block:cat", "Categoria bloqueada", none, "celular/notebook etc."⟩
  else if reSearch PC_GAMER_RE t then
    ⟨false, "block:pcgamer", "PC Gamer bloqueado", none, "setup completo"⟩
  else classify_priced t (find_lowest_price t)

/-! ### The duplicate-suppression cache `SeenDB` (src/realtime.py, lines 489-547)

The sqlite table `seen (key TEXT PRIMARY KEY, ts REAL)` is modelled as a
list of entries; a table state corresponds to a list whose keys are
pairwise distinct (`seenUnique`).  `ORDER BY ts DESC LIMIT maxlen // 2`
is modelled with a deterministic insertion sort on descending `ts`
(sqlite leaves the order of equal timestamps unspecified; the model
resolves such ties deterministically). -/

structure SeenEntry where
  key : String
  ts : ℚ
deriving DecidableEq

/-- `self._key(chat_id, msg_id)` (line 506): `f"{chat_id}:{msg_id}"`. -/
def seenKey (chatId msgId : String) : String :=
  chatId ++ ":" ++ msgId

/-- `SELECT 1 FROM seen WHERE key = ?` (line 515). -/
def seenLookup (s : List SeenEntry) (k : String) : Bool :=
  s.any (fun e => e.key == k)

def insertByTs (e : SeenEntry) : List SeenEntry → List SeenEntry
  | [] => [e]
  | x :: xs => if x.ts ≤ e.ts then e :: x :: xs else x :: insertByTs e xs

/-- `ORDER BY ts DESC` as a deterministic insertion sort. -/
def sortByTsDesc : List SeenEntry → List SeenEntry
  | [] => []
  | x :: xs => insertByTs x (sortByTsDesc xs)

/-- The default `maxlen` of `SeenDB` (line 490); the program instantiates
`seen_db = SeenDB(PERSIST_SEEN_DB)` with this default (line 547). -/
def seenMaxlen : Nat := 25000

/-- Lines 519-528: `INSERT OR REPLACE` of the fresh key (the key is known
to be absent here), then `SELECT COUNT(*)`, and if the count exceeds
`maxlen`, `DELETE` every key outside the `maxlen // 2` most recent. -/
def seenInsert (maxlen : Nat) (s : List SeenEntry) (k : String) (now : ℚ) :
    List SeenEntry :=
  let s1 : List SeenEntry := ⟨k, now⟩ :: s
  if s1.length > maxlen then
    let keepKeys := ((sortByTsDesc s1).take (maxlen / 2)).map (fun e => e.key)
    if keepKeys.isEmpty then s1
    else s1.filter (fun e => keepKeys.contains e.key)
  else s1

/-- `SeenDB.is_dup` (lines 509-531): returns the duplicate flag together
with the table state after the call (`now` stands for `time.time()`). -/
def is_dup (maxlen : Nat) (s : List SeenEntry) (chatId msgId : String)
    (now : ℚ) : Bool × List SeenEntry :=
  let k := seenKey chatId msgId
  if seenLookup s k then (true, s) else (false, seenInsert maxlen s k now)

/-- Distinct keys: the `PRIMARY KEY` invariant of the `seen` table. -/
def seenUnique (s : List SeenEntry) : Prop :=
  (s.map (fun e => e.key)).Nodup

/-! ### The event handler (src/realtime.py, lines 609-662)

Each inbound fragment is handled on its own: the stripped text (empty
texts are dropped), the `(chat_id, msg_id)` identity checked against
`SeenDB`, and — when new — the text is classified immediately.  The
handler keeps no per-source buffer and no timer; `recvAt` is carried on
the fragment and stands for the wall-clock time at which the handler
runs (`time.time()` inside `is_dup`). -/

structure Fragment where
  chatId : String
  msgId : String
  text : String
  recvAt : ℚ
deriving DecidableEq

/-- One `handler(event)` invocation (lines 610-662): returns the cache
state after the call and, when the fragment was non-empty, fresh and
classified, the classified text with its classification. -/
def processEvent (st : List SeenEntry) (f : Fragment) :
    List SeenEntry × Option (String × ClassificationResult) :=
  let t := String.mk (trimChars f.text.data)
  if t = "" then (st, none)
  else
    let r := is_dup seenMaxlen st f.chatId f.msgId f.recvAt
    if r.1 then (r.2, none)
    else (r.2, some (t, classify_and_match t))

/-- A whole stream of fragments through the handler, in arrival order,
collecting every classification that happens. -/
def processAll (st : List SeenEntry) : List Fragment → List (String × ClassificationResult)
  | [] => []
  | f :: fs =>
    let r := processEvent st f
    (match r.2 with
     | some x => [x]
     | none => []) ++ processAll r.1 fs

/-! ### Helper lemmas about the price extractor -/

theorem to_float_brl_band {raw : String} {v : ℚ} (h : to_float_brl raw = some v) :
    5 ≤ v ∧ v ≤ 5000000 := by
  simp only [to_float_brl] at h
  rcases hpf : pyFloat (((trimChars raw.data).filter (fun c => c != '.')).map
      (fun c => if c == ',' then '.' else c)) with _ | w <;> simp only [hpf] at h
  all_goals try exact Option.noConfusion h
  split_ifs at h with h0 h1
  all_goals try exact Option.noConfusion h
  obtain rfl : w = v := Option.some.inj h
  push_neg at h1
  exact h1

theorem candVal_band {num : List Char} {v : ℚ} (h : candVal num = some v) :
    5 ≤ v ∧ v ≤ 5000000 := by
  simp only [candVal] at h
  rcases htf : to_float_brl (String.mk num) with _ | w <;> simp only [htf] at h
  all_goals try exact Option.noConfusion h
  split_ifs at h with h0
  all_goals try exact Option.noConfusion h
  obtain rfl : w = v := Option.some.inj h
  exact to_float_brl_band htf

theorem foldl_min_mem (x : ℚ) (xs : List ℚ) : xs.foldl min x ∈ x :: xs := by
  induction xs generalizing x with
  | nil => simp
  | cons y ys ih =>
    have hmem := ih (min x y)
    simp only [List.foldl_cons]
    rcases List.mem_cons.mp hmem with h | h
    · rcases min_choice x y with hc | hc
      · exact List.mem_cons.mpr (Or.inl (h.trans hc))
      · exact List.mem_cons.mpr (Or.inr (List.mem_cons.mpr (Or.inl (h.trans hc))))
    · exact List.mem_cons.mpr (Or.inr (List.mem_cons.mpr (Or.inr h)))

theorem listMin_mem {l : List ℚ} {v : ℚ} (h : listMin l = some v) : v ∈ l := by
  cases l with
  | nil => exact absurd h (by simp [listMin])
  | cons x xs =>
    simp only [listMin] at h
    obtain rfl : xs.foldl min x = v := Option.some.inj h
    exact foldl_min_mem x xs

theorem mem_pixVals_band {t : String} {v : ℚ} (h : v ∈ pixVals t) :
    5 ≤ v ∧ v ≤ 5000000 := by
  obtain ⟨num, _, hc⟩ := List.mem_filterMap.mp h
  exact candVal_band hc

theorem mem_fbVals_band {t : String} {v : ℚ} (h : v ∈ fbVals t) :
    5 ≤ v ∧ v ≤ 5000000 := by
  simp only [fbVals] at h
  obtain ⟨cand, _, hc⟩ := List.mem_filterMap.mp h
  split_ifs at hc
  all_goals try exact Option.noConfusion hc
  exact candVal_band hc

theorem find_lowest_price_band {t : String} {v : ℚ}
    (h : find_lowest_price t = some v) : 5 ≤ v ∧ v ≤ 5000000 := by
  simp only [find_lowest_price] at h
  split_ifs at h with h1 h2
  all_goals try exact Option.noConfusion h
  · exact mem_fbVals_band (listMin_mem h)
  · exact mem_pixVals_band (listMin_mem h)

/-! ### Helper lemmas about the classifier -/

theorem ruleLtLt_matched_price {k ti tiHit : String} {lo : ℚ} {mLow : String}
    {hi : ℚ} {mHit mHi : String} {p : Option ℚ}
    (h : (ruleLtLt k ti tiHit lo mLow hi mHit mHi p).matched = true) :
    (ruleLtLt k ti tiHit lo mLow hi mHit mHi p).price = p := by
  unfold ruleLtLt at h ⊢
  split_ifs at h ⊢ <;> first | rfl | exact Bool.noConfusion h

theorem ruleLtLe_matched_price {k ti : String} {lo : ℚ} {mLow : String}
    {hi : ℚ} {mHit mHi : String} {p : Option ℚ}
    (h : (ruleLtLe k ti lo mLow hi mHit mHi p).matched = true) :
    (ruleLtLe k ti lo mLow hi mHit mHi p).price = p := by
  unfold ruleLtLe at h ⊢
  split_ifs at h ⊢ <;> first | rfl | exact Bool.noConfusion h

theorem ruleLe_matched_price {k ti : String} {hi : ℚ} {mHit mHi : String}
    {p : Option ℚ} (h : (ruleLe k ti hi mHit mHi p).matched = true) :
    (ruleLe k ti hi mHit mHi p).price = p := by
  unfold ruleLe at h ⊢
  split_ifs at h ⊢ <;> first | rfl | exact Bool.noConfusion h

theorem ruleBetween_matched_price {k ti tiHit : String} {lo hi : ℚ}
    {mHit mMiss : String} {p : Option ℚ}
    (h : (ruleBetween k ti tiHit lo hi mHit mMiss p).matched = true) :
    (ruleBetween k ti tiHit lo hi mHit mMiss p).price = p := by
  unfold ruleBetween at h ⊢
  split_ifs at h ⊢ <;> first | rfl | exact Bool.noConfusion h

theorem ruleOptLt_matched_price {k ti : String} {hi : ℚ} {mHit mMiss : String}
    {p : Option ℚ} (h : (ruleOptLt k ti hi mHit mMiss p).matched = true) :
    (ruleOptLt k ti hi mHit mMiss p).price = p := by
  unfold ruleOptLt at h ⊢
  split_ifs at h ⊢ <;> first | rfl | exact Bool.noConfusion h

theorem ruleLtLt_price_field {k ti tiHit : String} {lo : ℚ} {mLow : String}
    {hi : ℚ} {mHit mHi : String} {p : Option ℚ} :
    (ruleLtLt k ti tiHit lo mLow hi mHit mHi p).price = none ∨
      (ruleLtLt k ti tiHit lo mLow hi mHit mHi p).price = p := by
  unfold ruleLtLt
  split_ifs <;> first | exact Or.inl rfl | exact Or.inr rfl

theorem ruleLtLe_price_field {k ti : String} {lo : ℚ} {mLow : String}
    {hi : ℚ} {mHit mHi : String} {p : Option ℚ} :
    (ruleLtLe k ti lo mLow hi mHit mHi p).price = none ∨
      (ruleLtLe k ti lo mLow hi mHit mHi p).price = p := by
  unfold ruleLtLe
  split_ifs <;> first | exact Or.inl rfl | exact Or.inr rfl

theorem ruleLe_price_field {k ti : String} {hi : ℚ} {mHit mHi : String}
    {p : Option ℚ} :
    (ruleLe k ti hi mHit mHi p).price = none ∨ (ruleLe k ti hi mHit mHi p).price = p := by
  unfold ruleLe
  split_ifs <;> first | exact Or.inl rfl | exact Or.inr rfl

theorem ruleBetween_price_field {k ti tiHit : String} {lo hi : ℚ}
    {mHit mMiss : String} {p : Option ℚ} :
    (ruleBetween k ti tiHit lo hi mHit mMiss p).price = none ∨
      (ruleBetween k ti tiHit lo hi mHit mMiss p).price = p := by
  unfold ruleBetween
  split_ifs <;> first | exact Or.inl rfl | exact Or.inr rfl

theorem ruleOptLt_price_field {k ti : String} {hi : ℚ} {mHit mMiss : String}
    {p : Option ℚ} :
    (ruleOptLt k ti hi mHit mMiss p).price = none ∨
      (ruleOptLt k ti hi mHit mMiss p).price = p := by
  unfold ruleOptLt
  split_ifs <;> first | exact Or.inl rfl | exact Or.inr rfl

/-- The boundary behaviour of the recurring `[lo, hi)` threshold rule. -/
theorem ruleLtLt_matched_iff {k ti tiHit : String} {lo : ℚ} {mLow : String}
    {hi : ℚ} {mHit mHi : String} {p : ℚ} (hp : p ≠ 0) :
    (ruleLtLt k ti tiHit lo mLow hi mHit mHi (some p)).matched = true ↔
      lo ≤ p ∧ p < hi := by
  have htr : truthy (some p) = true := by
    simp only [truthy]
    exact bne_iff_ne.mpr hp
  unfold ruleLtLt
  simp only [htr, Bool.not_true, Bool.false_eq_true, if_false, Option.getD_some]
  split_ifs with h1 h2
  · exact iff_of_false (by simp) (fun hx => absurd hx.1 (not_le.mpr h1))
  · exact iff_of_true rfl ⟨not_lt.mp h1, h2⟩
  · exact iff_of_false (by simp) (fun hx => h2 hx.2)

/-- Any property that holds of the default and of every rule result
holds of the first-match scan. -/
theorem firstMatch_prop {P : ClassificationResult → Prop}
    {l : List (Bool × ClassificationResult)} {d : ClassificationResult}
    (hd : P d) (hl : ∀ x ∈ l, P x.2) : P (firstMatch l d) := by
  induction l with
  | nil => exact hd
  | cons x xs ih =>
    simp only [firstMatch]
    split_ifs
    · exact hl x (List.mem_cons_self x xs)
    · exact ih (fun y hy => hl y (List.mem_cons_of_mem x hy))

set_option maxHeartbeats 1000000 in
theorem classify_priced_none_matched (t : String) :
    (classify_priced t none).matched = false := by
  unfold classify_priced
  apply @firstMatch_prop (fun r => r.matched = false)
  · rfl
  · intro x hx
    fin_cases hx <;> rfl

set_option maxHeartbeats 1000000 in
theorem classify_priced_matched_price {t : String} {p : Option ℚ}
    (h : (classify_priced t p).matched = true) : (classify_priced t p).price = p := by
  revert h
  unfold classify_priced
  apply @firstMatch_prop (fun r => r.matched = true → r.price = p)
  · exact fun h => Bool.noConfusion h
  · intro x hx
    fin_cases hx <;>
      first
      | exact fun h => Bool.noConfusion h
      | exact fun h => ruleLtLt_matched_price h
      | exact fun h => ruleLtLe_matched_price h
      | exact fun h => ruleLe_matched_price h
      | exact fun h => ruleBetween_matched_price h
      | exact fun h => ruleOptLt_matched_price h

set_option maxHeartbeats 1000000 in
theorem classify_priced_price_field (t : String) (p : Option ℚ) :
    (classify_priced t p).price = none ∨ (classify_priced t p).price = p := by
  unfold classify_priced
  apply @firstMatch_prop (fun r => r.price = none ∨ r.price = p)
  · exact Or.inr rfl
  · intro x hx
    fin_cases hx <;>
      first
      | exact Or.inr rfl
      | exact ruleLtLt_price_field
      | exact ruleLtLe_price_field
      | exact ruleLe_price_field
      | exact ruleBetween_price_field
      | exact ruleOptLt_price_field

/-! ### Claims about the price extractor -/

/-- C3: price normalization round-trip: `find_lowest_price` maps
`"R$ 1.799,90"` to 1799.90 and `"R$ 1.799"` to 1799.0, and rejects
`"89,90"` (no currency marker); `_to_float_brl` strips `.` as a
thousands separator and turns `,` into the decimal point, so `"3.199"`
normalizes to 3199 (never 3.2) and `"89,90"` to 89.90. -/
theorem price_round_trip :
    find_lowest_price ("R$ 1.799,90") = some (1799.9 : ℚ) ∧
    find_lowest_price ("R$ 1.799") = some 1799 ∧
    find_lowest_price ("89,90") = none ∧
    to_float_brl ("3.199") = some 3199 ∧
    to_float_brl ("3.199") ≠ some (3.2 : ℚ) ∧
    to_float_brl ("89,90") = some (89.9 : ℚ) := by
  refine ⟨by decide, by decide, by decide, by decide, by decide, by decide⟩

/-- C4: when at least one currency-marked amount tagged with a
cash-payment qualifier is accepted, `find_lowest_price` returns the
minimum of those tagged amounts and ignores the untagged candidates;
in particular `"de R$ 1.999,00 por R$ 1.699,00 no pix"` yields 1699.00. -/
theorem pix_cash_price_minimum :
    (∀ t : String, pixVals t ≠ [] → find_lowest_price t = listMin (pixVals t)) ∧
    find_lowest_price ("de R$ 1.999,00 por R$ 1.699,00 no pix") = some 1699 := by
  constructor
  · intro t h
    by_cases ht : t = ""
    · subst ht
      exact absurd (by decide) h
    · have hne : (pixVals t).isEmpty = false := by
        cases hpv : pixVals t with
        | nil => exact absurd hpv h
        | cons x xs => rfl
      simp [find_lowest_price, ht, hne]
  · decide

/-- C4 witness: the pix list of the sample text is nonempty, and the
theorem applies to it. -/
theorem pix_cash_price_minimum_witness :
    pixVals ("de R$ 1.999,00 por R$ 1.699,00 no pix") ≠ [] ∧
    find_lowest_price ("de R$ 1.999,00 por R$ 1.699,00 no pix")
      = listMin (pixVals ("de R$ 1.999,00 por R$ 1.699,00 no pix")) :=
  ⟨by decide, pix_cash_price_minimum.1 ("de R$ 1.999,00 por R$ 1.699,00 no pix") (by decide)⟩

/-! ### Claims about the classifier -/

/-- C2: the classifier fails closed on a missing price: when the
extractor finds no price, no rule matches; equivalently, whenever
`classify_and_match` reports `matched = true` the returned price field
is populated. -/
theorem classifier_fail_closed :
    (∀ t : String, find_lowest_price t = none → (classify_and_match t).matched = false) ∧
    (∀ t : String, (classify_and_match t).matched = true →
      (classify_and_match t).price ≠ none) := by
  constructor
  · intro t hf
    simp only [classify_and_match]
    split_ifs with h1 h2
    · rfl
    · rfl
    · rw [hf]
      exact classify_priced_none_matched t
  · intro t hm
    simp only [classify_and_match] at hm ⊢
    split_ifs at hm ⊢
    all_goals try exact Bool.noConfusion hm
    rw [classify_priced_matched_price hm]
    intro hnone
    rw [hnone] at hm
    rw [classify_priced_none_matched t] at hm
    exact Bool.noConfusion hm

/-- C2 witness: a text with no price in range never matches, and a
matching text carries its extracted price. -/
theorem classifier_fail_closed_witness :
    (classify_and_match ("b760 sem nada")).matched = false ∧
    (classify_and_match ("b760 r$350,00")).matched = true ∧
    (classify_and_match ("b760 r$350,00")).price ≠ none :=
  ⟨classifier_fail_closed.1 ("b760 sem nada") (by decide), by decide,
   classifier_fail_closed.2 ("b760 r$350,00") (by decide)⟩

/-- C5: for any text that matches the LGA1700/B760 motherboard rule and
none of the rules evaluated before it, a text with extracted price `p`
matches exactly when `300 ≤ p < 600`; prices below 300 are rejected as
implausible captures and prices at or above 600 as too expensive. -/
theorem lga1700_threshold_boundary (t : String) (p : ℚ)
    (hb : reSearch BLOCK_CATS t = false)
    (hg : reSearch PC_GAMER_RE t = false)
    (ha : reSearch A520_RE t = false)
    (hh : reSearch H610_RE t = false)
    (hl : (reSearch LGA1700_RE t || reSearch SPECIFIC_B760M_RE t) = true)
    (hp : find_lowest_price t = some p) :
    (classify_and_match t).matched = true ↔ (300 ≤ p ∧ p < 600) := by
  have hband := find_lowest_price_band hp
  have hp0 : p ≠ 0 := by
    intro h
    rw [h] at hband
    norm_num at hband
  simp only [classify_and_match, hb, hg, Bool.false_eq_true, if_false, hp]
  simp only [classify_priced, ha, hh, hl, Bool.false_eq_true, if_false,
    eq_self_iff_true, if_true]
  exact ruleLtLt_matched_iff hp0

/-- C5 witness: `"b760 r$300,00"` extracts price 300, triggers no earlier
rule, and matches. -/
theorem lga1700_threshold_boundary_witness :
    (classify_and_match ("b760 r$300,00")).matched = true :=
  (lga1700_threshold_boundary ("b760 r$300,00") 300 (by decide) (by decide)
    (by decide) (by decide) (by decide) (by decide)).mpr (by norm_num)

/-- C6: the hard block list and the bundle/kit block are evaluated before
every product rule and short-circuit with `matched = false` and their
specific reason, regardless of the rest of the text. -/
theorem block_rules_short_circuit (t : String) :
    (reSearch BLOCK_CATS t = true →
      classify_and_match t =
        ⟨false, "block:cat", "Categoria bloqueada", none, "celular/notebook etc."⟩) ∧
    (reSearch BLOCK_CATS t = false → reSearch PC_GAMER_RE t = true →
      classify_and_match t =
        ⟨false, "block:pcgamer", "PC Gamer bloqueado", none, "setup completo"⟩) := by
  constructor
  · intro h
    simp [classify_and_match, h]
  · intro h1 h2
    simp [classify_and_match, h1, h2]

/-- C6 witness: a blocked-category text (which also mentions a matchable
product) and a bundle text are both rejected with the block reasons. -/
theorem block_rules_short_circuit_witness :
    classify_and_match ("celular e b760 r$350,00") =
      ⟨false, "block:cat", "Categoria bloqueada", none, "celular/notebook etc."⟩ ∧
    classify_and_match ("pc gamer b760 r$350,00") =
      ⟨false, "block:pcgamer", "PC Gamer bloqueado", none, "setup completo"⟩ :=
  ⟨(block_rules_short_circuit ("celular e b760 r$350,00")).1 (by decide),
   (block_rules_short_circuit ("pc gamer b760 r$350,00")).2 (by decide) (by decide)⟩

/-- C9: the pure core is total: for every input string
`find_lowest_price` returns `none` or a sanity-banded price, and
`classify_and_match` always returns a complete result whose price field
is `none` or a sanity-banded price; empty input yields the normal
no-match result rather than an error. -/
theorem pure_core_totality :
    (∀ t : String, find_lowest_price t = none ∨
      ∃ v, find_lowest_price t = some v ∧ 5 ≤ v ∧ v ≤ 5000000) ∧
    (∀ t : String, (classify_and_match t).price = none ∨
      ∃ v, (classify_and_match t).price = some v ∧ 5 ≤ v ∧ v ≤ 5000000) ∧
    classify_and_match ("") = ⟨false, "none", "sem match", none, "sem match"⟩ := by
  refine ⟨?_, ?_, by decide⟩
  · intro t
    rcases hf : find_lowest_price t with _ | v
    · exact Or.inl rfl
    · exact Or.inr ⟨v, rfl, find_lowest_price_band hf⟩
  · intro t
    simp only [classify_and_match]
    split_ifs with h1 h2
    · exact Or.inl rfl
    · exact Or.inl rfl
    · rcases classify_priced_price_field t (find_lowest_price t) with h | h
      · exact Or.inl h
      · rcases hf : find_lowest_price t with _ | v
        · rw [hf] at h
          exact Or.inl h
        · rw [hf] at h
          exact Or.inr ⟨v, h, find_lowest_price_band hf⟩

/-! ### Helper lemmas about the dedup cache -/

theorem mem_insertByTs {a e : SeenEntry} {l : List SeenEntry} :
    a ∈ insertByTs e l ↔ a = e ∨ a ∈ l := by
  induction l with
  | nil => simp [insertByTs]
  | cons x xs ih =>
    simp only [insertByTs]
    split_ifs
    · simp [List.mem_cons]
    · simp [List.mem_cons, ih]
      tauto

theorem insertByTs_perm (e : SeenEntry) (l : List SeenEntry) :
    List.Perm (insertByTs e l) (e :: l) := by
  induction l with
  | nil => exact List.Perm.refl _
  | cons x xs ih =>
    simp only [insertByTs]
    split_ifs
    · exact List.Perm.refl _
    · exact (ih.cons x).trans (List.Perm.swap e x xs)

theorem sortByTsDesc_perm (l : List SeenEntry) : List.Perm (sortByTsDesc l) l := by
  induction l with
  | nil => exact List.Perm.refl _
  | cons x xs ih => exact (insertByTs_perm x (sortByTsDesc xs)).trans (ih.cons x)

theorem mem_sortByTsDesc {a : SeenEntry} {l : List SeenEntry} :
    a ∈ sortByTsDesc l ↔ a ∈ l :=
  (sortByTsDesc_perm l).mem_iff

theorem insertByTs_of_max {e : SeenEntry} {l : List SeenEntry}
    (h : ∀ x ∈ l, x.ts ≤ e.ts) : insertByTs e l = e :: l := by
  cases l with
  | nil => rfl
  | cons x xs =>
    simp only [insertByTs]
    rw [if_pos (h x (List.mem_cons_self x xs))]

theorem sortByTsDesc_cons_max {e : SeenEntry} {l : List SeenEntry}
    (h : ∀ x ∈ l, x.ts ≤ e.ts) :
    sortByTsDesc (e :: l) = e :: sortByTsDesc l := by
  show insertByTs e (sortByTsDesc l) = _
  exact insertByTs_of_max (fun x hx => h x (mem_sortByTsDesc.mp hx))

theorem insertByTs_pairwise {e : SeenEntry} {l : List SeenEntry}
    (h : List.Pairwise (fun a b => b.ts ≤ a.ts) l) :
    List.Pairwise (fun a b => b.ts ≤ a.ts) (insertByTs e l) := by
  induction l with
  | nil => simp [insertByTs]
  | cons x xs ih =>
    simp only [insertByTs]
    rcases List.pairwise_cons.mp h with ⟨hx, hxs⟩
    split_ifs with hc
    · refine List.pairwise_cons.mpr ⟨?_, h⟩
      intro y hy
      rcases List.mem_cons.mp hy with rfl | hy
      · exact hc
      · exact (hx y hy).trans hc
    · refine List.pairwise_cons.mpr ⟨?_, ih hxs⟩
      intro y hy
      rcases mem_insertByTs.mp hy with rfl | hy
      · exact le_of_lt (not_le.mp hc)
      · exact hx y hy

theorem sortByTsDesc_pairwise (l : List SeenEntry) :
    List.Pairwise (fun a b => b.ts ≤ a.ts) (sortByTsDesc l) := by
  induction l with
  | nil => simp [sortByTsDesc]
  | cons x xs ih =>
    show List.Pairwise _ (insertByTs x (sortByTsDesc xs))
    exact insertByTs_pairwise ih

theorem contains_iff_mem {K : List String} {a : String} :
    K.contains a = true ↔ a ∈ K :=
  List.elem_iff

theorem length_filter_key (K : List String) (l : List SeenEntry) :
    (l.filter (fun e => K.contains e.key)).length
      = ((l.map (fun e => e.key)).filter (fun a => K.contains a)).length := by
  induction l with
  | nil => rfl
  | cons x xs ih =>
    simp only [List.filter_cons, List.map_cons]
    split_ifs
    · simp only [List.length_cons, ih]
    · exact ih

theorem length_filter_contains_of_nodup (A K : List String)
    (hA : A.Nodup) (hK : K.Nodup) (hsub : ∀ a ∈ K, a ∈ A) :
    (A.filter (fun a => K.contains a)).length = K.length := by
  have hperm : List.Perm (A.filter (fun a => K.contains a)) K := by
    refine (List.perm_ext_iff_of_nodup (hA.filter _) hK).mpr ?_
    intro a
    simp only [List.mem_filter]
    constructor
    · rintro ⟨_, hc⟩
      exact contains_iff_mem.mp hc
    · intro ha
      exact ⟨hsub a ha, contains_iff_mem.mpr ha⟩
  exact hperm.length_eq

theorem seenUnique_cons {s : List SeenEntry} {k : String} {now : ℚ}
    (hl : seenLookup s k = false) (hu : seenUnique s) :
    seenUnique (⟨k, now⟩ :: s) := by
  unfold seenUnique at hu ⊢
  simp only [List.map_cons]
  refine List.nodup_cons.mpr ⟨?_, hu⟩
  intro hmem
  obtain ⟨e, he, hek⟩ := List.mem_map.mp hmem
  have hany : s.any (fun e => e.key == k) = true :=
    List.any_eq_true.mpr ⟨e, he, by rw [hek]; exact beq_self_eq_true k⟩
  unfold seenLookup at hl
  rw [hany] at hl
  exact Bool.noConfusion hl

/-- On a fresh key, when the insert overflows the capacity, the cache is
cut to exactly `maxlen / 2` entries and every dropped entry's timestamp
is at most every kept entry's timestamp. -/
theorem seenInsert_overflow (maxlen : Nat) (s : List SeenEntry) (k : String) (now : ℚ)
    (hu : seenUnique (⟨k, now⟩ :: s))
    (hover : maxlen < s.length + 1) (hml : 0 < maxlen / 2) :
    (seenInsert maxlen s k now).length = maxlen / 2 ∧
    (∀ e ∈ (⟨k, now⟩ :: s : List SeenEntry), e ∉ seenInsert maxlen s k now →
      ∀ e2 ∈ seenInsert maxlen s k now, e.ts ≤ e2.ts) := by
  have hlen1 : maxlen < (⟨k, now⟩ :: s : List SeenEntry).length := by
    simp only [List.length_cons]
    omega
  have hperm := sortByTsDesc_perm (⟨k, now⟩ :: s : List SeenEntry)
  have hu' : ((⟨k, now⟩ :: s : List SeenEntry).map (fun e => e.key)).Nodup := hu
  have hkkEq :
      ((sortByTsDesc (⟨k, now⟩ :: s)).take (maxlen / 2)).map (fun e => e.key)
        = ((sortByTsDesc (⟨k, now⟩ :: s)).map (fun e => e.key)).take (maxlen / 2) :=
    List.map_take _ _ _
  have hSortedKeysNodup :
      ((sortByTsDesc (⟨k, now⟩ :: s)).map (fun e => e.key)).Nodup :=
    ((hperm.map (fun e => e.key)).nodup_iff).mpr hu'
  have hkkNodup :
      (((sortByTsDesc (⟨k, now⟩ :: s)).take (maxlen / 2)).map (fun e => e.key)).Nodup := by
    rw [hkkEq]
    exact (List.take_sublist _ _).nodup hSortedKeysNodup
  have hkkLen :
      (((sortByTsDesc (⟨k, now⟩ :: s)).take (maxlen / 2)).map (fun e => e.key)).length
        = maxlen / 2 := by
    rw [hkkEq, List.length_take, List.length_map, hperm.length_eq]
    have hhalf : maxlen / 2 ≤ maxlen := Nat.div_le_self maxlen 2
    simp only [List.length_cons]
    omega
  have hkkSub :
      ∀ a ∈ ((sortByTsDesc (⟨k, now⟩ :: s)).take (maxlen / 2)).map (fun e => e.key),
        a ∈ (⟨k, now⟩ :: s : List SeenEntry).map (fun e => e.key) := by
    intro a ha
    rw [hkkEq] at ha
    exact ((hperm.map (fun e => e.key)).mem_iff).mp ((List.take_sublist _ _).subset ha)
  have hNE :
      (((sortByTsDesc (⟨k, now⟩ :: s)).take (maxlen / 2)).map (fun e => e.key)).isEmpty
        = false := by
    cases hK : ((sortByTsDesc (⟨k, now⟩ :: s)).take (maxlen / 2)).map (fun e => e.key) with
    | nil =>
      rw [hK] at hkkLen
      simp at hkkLen
      omega
    | cons y ys => rfl
  have hinsEq : seenInsert maxlen s k now
      = (⟨k, now⟩ :: s : List SeenEntry).filter (fun e =>
          (((sortByTsDesc (⟨k, now⟩ :: s)).take (maxlen / 2)).map
            (fun e => e.key)).contains e.key) := by
    simp only [seenInsert]
    rw [if_pos hlen1, if_neg (by rw [hNE]; exact Bool.noConfusion)]
  constructor
  · rw [hinsEq, length_filter_key,
      length_filter_contains_of_nodup _ _ hu' hkkNodup hkkSub, hkkLen]
  · intro e he hnotin e2 he2
    have hef : e.key ∉ ((sortByTsDesc (⟨k, now⟩ :: s)).take (maxlen / 2)).map
        (fun e => e.key) := by
      intro hc
      apply hnotin
      rw [hinsEq]
      exact List.mem_filter.mpr ⟨he, contains_iff_mem.mpr hc⟩
    have hsplit : sortByTsDesc (⟨k, now⟩ :: s)
        = (sortByTsDesc (⟨k, now⟩ :: s)).take (maxlen / 2)
          ++ (sortByTsDesc (⟨k, now⟩ :: s)).drop (maxlen / 2) :=
      (List.take_append_drop _ _).symm
    have heSorted : e ∈ sortByTsDesc (⟨k, now⟩ :: s) := hperm.mem_iff.mpr he
    have heDrop : e ∈ (sortByTsDesc (⟨k, now⟩ :: s)).drop (maxlen / 2) := by
      rcases List.mem_append.mp (hsplit ▸ heSorted) with hke | hd
      · exact absurd (List.mem_map_of_mem (fun e => e.key) hke) hef
      · exact hd
    rw [hinsEq] at he2
    obtain ⟨he2s1, he2c⟩ := List.mem_filter.mp he2
    have he2sorted : e2 ∈ sortByTsDesc (⟨k, now⟩ :: s) := hperm.mem_iff.mpr he2s1
    have he2keep : e2 ∈ (sortByTsDesc (⟨k, now⟩ :: s)).take (maxlen / 2) := by
      rcases List.mem_append.mp (hsplit ▸ he2sorted) with hke | hd
      · exact hke
      · exfalso
        have hkk2 := contains_iff_mem.mp he2c
        have hdk : e2.key ∈ ((sortByTsDesc (⟨k, now⟩ :: s)).drop (maxlen / 2)).map
            (fun e => e.key) := List.mem_map_of_mem _ hd
        have hnd : ((((sortByTsDesc (⟨k, now⟩ :: s)).take (maxlen / 2))
            ++ ((sortByTsDesc (⟨k, now⟩ :: s)).drop (maxlen / 2))).map
              (fun e => e.key)).Nodup := by
          rw [← hsplit]
          exact hSortedKeysNodup
        rw [List.map_append] at hnd
        exact (List.nodup_append.mp hnd).2.2 hkk2 hdk
    have hpw := sortByTsDesc_pairwise (⟨k, now⟩ :: s : List SeenEntry)
    rw [hsplit] at hpw
    exact (List.pairwise_append.mp hpw).2.2 e2 he2keep e heDrop

/-- After a fresh key is inserted under a timestamp at least as large as
every stored timestamp, the key is present in the resulting state (it is
never evicted by its own insert). -/
theorem seenLookup_insert_self (maxlen : Nat) (s : List SeenEntry) (k : String)
    (now : ℚ) (hts : ∀ e ∈ s, e.ts < now) (hml : 0 < maxlen / 2) :
    seenLookup (seenInsert maxlen s k now) k = true := by
  have hsort : sortByTsDesc ((⟨k, now⟩ : SeenEntry) :: s)
      = ⟨k, now⟩ :: sortByTsDesc s :=
    sortByTsDesc_cons_max (fun x hx => le_of_lt (hts x hx))
  obtain ⟨m, hm⟩ : ∃ m, maxlen / 2 = m + 1 := ⟨maxlen / 2 - 1, by omega⟩
  simp only [seenInsert, hsort, hm, List.take_succ_cons, List.map_cons]
  split_ifs with hov hemp
  · exact absurd hemp (by exact Bool.noConfusion)
  · have hpk : ((k :: ((sortByTsDesc s).take m).map (fun e => e.key)).contains
        (⟨k, now⟩ : SeenEntry).key) = true :=
      contains_iff_mem.mpr (List.mem_cons_self _ _)
    simp [seenLookup, List.filter_cons, hpk]
  · simp [seenLookup]

/-! ### Claims about the dedup cache -/

/-- C1: consecutive dedup checks for the same `(source_id, message_id)`
pair: a fresh pair is reported new (`false`) and marked, and once marked
the second check reports it as a duplicate (`true`) — never new twice in
a row (the call's timestamp is not older than the stored ones, which is
how `time.time()` behaves). -/
theorem seen_check_and_mark_idempotent (chat msg : String) (s : List SeenEntry)
    (now1 now2 : ℚ) (hts : ∀ e ∈ s, e.ts < now1) :
    (seenLookup s (seenKey chat msg) = false →
      (is_dup seenMaxlen s chat msg now1).1 = false) ∧
    ((is_dup seenMaxlen s chat msg now1).1 = false →
      (is_dup seenMaxlen (is_dup seenMaxlen s chat msg now1).2 chat msg now2).1
        = true) := by
  constructor
  · intro h
    simp [is_dup, h]
  · intro h1
    have hl : seenLookup s (seenKey chat msg) = false := by
      cases hcase : seenLookup s (seenKey chat msg)
      · rfl
      · simp [is_dup, hcase] at h1
    have hstate : (is_dup seenMaxlen s chat msg now1).2
        = seenInsert seenMaxlen s (seenKey chat msg) now1 := by
      simp [is_dup, hl]
    rw [hstate]
    simp [is_dup, seenLookup_insert_self seenMaxlen s (seenKey chat msg) now1 hts
      (by norm_num [seenMaxlen])]

/-- C1 witness: a fresh pair on the empty cache is new once and a
duplicate immediately afterwards. -/
theorem seen_check_and_mark_idempotent_witness :
    (is_dup seenMaxlen [] ("c") ("1") 0).1 = false ∧
    (is_dup seenMaxlen (is_dup seenMaxlen [] ("c") ("1") 0).2 ("c") ("1") 1).1
      = true :=
  ⟨(seen_check_and_mark_idempotent ("c") ("1") [] 0 1 (by simp)).1 (by decide),
   (seen_check_and_mark_idempotent ("c") ("1") [] 0 1 (by simp)).2 (by decide)⟩

/-- C8: the cache stays within its configured maximum (25000) after every
call, and whenever an insert would exceed the maximum the cache is cut
to the `maxlen // 2` (= 12500) most recently seen entries, dropping all
older ones. -/
theorem seen_db_bounded_eviction (chat msg : String) (s : List SeenEntry) (now : ℚ)
    (hu : seenUnique s) (hlen : s.length ≤ seenMaxlen) :
    (is_dup seenMaxlen s chat msg now).2.length ≤ seenMaxlen ∧
    (seenLookup s (seenKey chat msg) = false → seenMaxlen < s.length + 1 →
      (is_dup seenMaxlen s chat msg now).2.length = seenMaxlen / 2 ∧
      ∀ e ∈ (⟨seenKey chat msg, now⟩ :: s : List SeenEntry),
        e ∉ (is_dup seenMaxlen s chat msg now).2 →
        ∀ e2 ∈ (is_dup seenMaxlen s chat msg now).2, e.ts ≤ e2.ts) := by
  by_cases hl : seenLookup s (seenKey chat msg) = true
  · constructor
    · simp [is_dup, hl, hlen]
    · intro hfalse
      rw [hl] at hfalse
      exact Bool.noConfusion hfalse
  · have hl' : seenLookup s (seenKey chat msg) = false := by
      cases hcase : seenLookup s (seenKey chat msg)
      · rfl
      · exact absurd hcase hl
    have hstate : (is_dup seenMaxlen s chat msg now).2
        = seenInsert seenMaxlen s (seenKey chat msg) now := by
      simp [is_dup, hl']
    by_cases hov : seenMaxlen < s.length + 1
    · have hun1 : seenUnique (⟨seenKey chat msg, now⟩ :: s) := seenUnique_cons hl' hu
      have hml : 0 < seenMaxlen / 2 := by norm_num [seenMaxlen]
      obtain ⟨hc, hd⟩ :=
        seenInsert_overflow seenMaxlen s (seenKey chat msg) now hun1 hov hml
      rw [hstate]
      refine ⟨?_, fun _ _ => ⟨hc, hd⟩⟩
      rw [hc]
      norm_num [seenMaxlen]
    · have hins : seenInsert seenMaxlen s (seenKey chat msg) now
          = ⟨seenKey chat msg, now⟩ :: s := by
        simp only [seenInsert]
        rw [if_neg (by simp only [List.length_cons]; exact hov)]
      constructor
      · rw [hstate, hins]
        simp only [List.length_cons]
        omega
      · intro _ hcon
        exact absurd hcon hov

/-- C8 witness: a non-overflowing insert respects the bound. -/
theorem seen_db_bounded_eviction_witness :
    (is_dup seenMaxlen [⟨seenKey ("a") ("1"), 0⟩] ("b") ("2") 1).2.length
      ≤ seenMaxlen :=
  (seen_db_bounded_eviction ("b") ("2") [⟨seenKey ("a") ("1"), 0⟩] 1
    (by unfold seenUnique; decide) (by decide)).1

/-- C10: the duplicate path of `is_dup` is effect-free: when the call
reports a duplicate, the stored entries (keys and timestamps alike) are
returned unchanged — no insertion, no timestamp refresh, no eviction. -/
theorem is_dup_duplicate_frame (s : List SeenEntry) (chat msg : String) (now : ℚ)
    (h : (is_dup seenMaxlen s chat msg now).1 = true) :
    (is_dup seenMaxlen s chat msg now).2 = s := by
  by_cases hc : seenLookup s (seenKey chat msg) = true
  · simp [is_dup, hc]
  · have hc' : seenLookup s (seenKey chat msg) = false := by
      cases hcase : seenLookup s (seenKey chat msg)
      · rfl
      · exact absurd hcase hc
    simp [is_dup, hc'] at h

/-- C10 witness: a duplicate call on a one-entry cache returns the cache
unchanged. -/
theorem is_dup_duplicate_frame_witness :
    (is_dup seenMaxlen [⟨seenKey ("c") ("9"), 5⟩] ("c") ("9") 7).2
      = [⟨seenKey ("c") ("9"), 5⟩] :=
  is_dup_duplicate_frame [⟨seenKey ("c") ("9"), 5⟩] ("c") ("9") 7 (by decide)

/-! ### Claims about the handler -/

/-- C7 counterexample: two fragments for one source arriving 1 time unit
apart (the spec's scenario with quiet window 4) do NOT produce exactly
one classification of the concatenated text: the handler classifies each
fragment immediately and independently, so there are two classification
calls, each on its own fragment text. -/
theorem handler_windowing_counterexample :
    (processAll [] [⟨"src", "1", "tv 4k", 0⟩, ⟨"src", "2", "boa", 1⟩]).length ≠ 1 ∧
    (processAll [] [⟨"src", "1", "tv 4k", 0⟩, ⟨"src", "2", "boa", 1⟩]).map Prod.fst
      = ["tv 4k", "boa"] := by
  exact ⟨by decide, by decide⟩

/-- C7 (amended): the handler has no per-source accumulator or quiet
window; two fragments with distinct message ids and non-empty stripped
texts are classified independently, each on its own text, whatever their
arrival times (1 or 10 units apart alike). -/
theorem handler_fragments_independent (c m1 m2 t1 t2 : String) (τ1 τ2 : ℚ)
    (h1 : String.mk (trimChars t1.data) ≠ "")
    (h2 : String.mk (trimChars t2.data) ≠ "")
    (hk : seenKey c m1 ≠ seenKey c m2) :
    (processAll [] [⟨c, m1, t1, τ1⟩, ⟨c, m2, t2, τ2⟩]).map Prod.fst
      = [String.mk (trimChars t1.data), String.mk (trimChars t2.data)] := by
  have hb : (seenKey c m1 == seenKey c m2) = false := beq_eq_false_iff_ne.mpr hk
  simp [processAll, processEvent, is_dup, seenLookup, seenInsert, seenMaxlen,
    h1, h2, hb]

/-- C7 witness: two concrete fragments, 10 time units apart, produce two
independent classifications of their own texts. -/
theorem handler_fragments_independent_witness :
    (processAll [] [⟨"s", "1", "a", 0⟩, ⟨"s", "2", "b", 10⟩]).map Prod.fst
      = [String.mk (trimChars ("a").data), String.mk (trimChars ("b").data)] :=
  handler_fragments_independent ("s") ("1") ("2") ("a") ("b") 0 10
    (by decide) (by decide) (by decide)

